import Mathlib

/-!
Verification of the `nonebot-plugin-recall` plugin core
(`src/nonebot_plugin_recall/__init__.py` and `config.py`).

The embedding models Python values (`PyVal`), OneBot message segments
(a type tag plus a string-keyed data map), the content normalizer
`_build_non_voice_message` with its face helpers, the bounded message
cache with FIFO eviction, the whitelist-config parser, and the two
event handlers (`cache_group_message` and `group_recall`) as pure
state-passing functions.  External collaborators (member-info lookup,
live message fetch) are oracles supplied through `BotEnv`; outbound
sends are collected in a list.
-/

namespace Recall

/-- A Python value, as far as the plugin inspects one: `None`, `int`,
`str`, `list`, and `dict` with string keys cover every payload the
code touches. -/
inductive PyVal : Type where
  | none : PyVal
  | int (n : Int) : PyVal
  | str (s : String) : PyVal
  | list (xs : List PyVal) : PyVal
  | dict (ps : List (String × PyVal)) : PyVal

/-- A single-quote character, used by the Python `repr` rendering. -/
def squote : String := (Char.ofNat 39).toString

mutual

/-- Python `repr` of a value (the rendering `str` uses for nested
lists and dicts). -/
def pyRepr : PyVal → String
  | PyVal.none => ("None")
  | PyVal.int n => toString n
  | PyVal.str s => squote ++ s ++ squote
  | PyVal.list xs => ("[") ++ pyReprItems xs ++ ("]")
  | PyVal.dict ps => ("\x7b") ++ pyReprPairs ps ++ ("\x7d")

/-- Comma-separated `repr`s of list items. -/
def pyReprItems : List PyVal → String
  | [] => ("")
  | [x] => pyRepr x
  | x :: xs => pyRepr x ++ (", ") ++ pyReprItems xs

/-- Comma-separated `repr`s of dict entries. -/
def pyReprPairs : List (String × PyVal) → String
  | [] => ("")
  | [(k, v)] => squote ++ k ++ squote ++ (": ") ++ pyRepr v
  | (k, v) :: ps => squote ++ k ++ squote ++ (": ") ++ pyRepr v ++ (", ") ++ pyReprPairs ps

end

/-- Python `str()` of a value: strings pass through, everything else
renders as its `repr`. -/
def pyStr : PyVal → String
  | PyVal.none => ("None")
  | PyVal.int n => toString n
  | PyVal.str s => s
  | PyVal.list xs => ("[") ++ pyReprItems xs ++ ("]")
  | PyVal.dict ps => ("\x7b") ++ pyReprPairs ps ++ ("\x7d")

/-- Python truthiness of a value. -/
def pyTruthy : PyVal → Bool
  | PyVal.none => false
  | PyVal.int n => n != 0
  | PyVal.str s => s != ("")
  | PyVal.list xs => !xs.isEmpty
  | PyVal.dict ps => !ps.isEmpty

/-- Python `str.strip()` over ASCII whitespace, implemented on the
character list (the built-in `String.trim` does not reduce in the
kernel). -/
def pyStrip (s : String) : String :=
  String.mk (((s.data.dropWhile Char.isWhitespace).reverse.dropWhile
    Char.isWhitespace).reverse)

/-- Does the string start with the given character? -/
def headIs (c : Char) (s : String) : Bool :=
  match s.data with
  | [] => false
  | a :: _ => a = c

/-- Does the string end with the given character? -/
def lastIs (c : Char) (s : String) : Bool :=
  match s.data.getLast? with
  | Option.some a => a = c
  | Option.none => false

/-- Python `s[1:]`. -/
def strTail (s : String) : String :=
  String.mk (s.data.drop 1)

/-- Python `s[1:-1]`. -/
def strInner (s : String) : String :=
  String.mk ((s.data.drop 1).dropLast)

/-- Splitting a character list on every occurrence of a separator. -/
def splitCharAux (sep : Char) : List Char → List (List Char)
  | [] => [[]]
  | c :: rest =>
      match splitCharAux sep rest with
      | [] => [[]]
      | g :: gs => if c = sep then [] :: g :: gs else (c :: g) :: gs

/-- Python `s.split(sep)` for a one-character separator. -/
def splitChar (sep : Char) (s : String) : List String :=
  (splitCharAux sep s.data).map String.mk

/-- Python `s.replace(old, new)` for one-character arguments. -/
def replaceChar (old new : Char) (s : String) : String :=
  String.mk (s.data.map (fun c => if c = old then new else c))

/-- Numeric value of a non-empty digit string. -/
def digitsVal (s : String) : Int :=
  s.data.foldl (fun n c => n * 10 + (Int.ofNat (c.toNat - 48))) 0

/-- Python `int(s)` on a string: surrounding whitespace is stripped,
an optional sign is allowed, and the rest must be non-empty digits;
everything else raises (here: `Option.none`). -/
def parseIntStr (s : String) : Option Int :=
  let t := pyStrip s
  let (sign, digits) :=
    if headIs ('-') t then ((-1 : Int), strTail t)
    else if headIs ('+') t then ((1 : Int), strTail t)
    else ((1 : Int), t)
  if digits = ("") then Option.none
  else if digits.data.all Char.isDigit then Option.some (sign * digitsVal digits)
  else Option.none

/-- Python `int(v)`: ints pass through, strings are parsed, every
other value the plugin can hold raises (here: `Option.none`). -/
def pyInt : PyVal → Option Int
  | PyVal.int n => Option.some n
  | PyVal.str s => parseIntStr s
  | _ => Option.none

/-- Python `d.get(key)` on a string-keyed dict: first entry with the
key, or `None` (`d.get(key, dflt)` is `dictGetD`). -/
def dictLookup (ps : List (String × PyVal)) (key : String) : Option PyVal :=
  match ps with
  | [] => Option.none
  | (k, v) :: rest => if k = key then Option.some v else dictLookup rest key

/-- Python `d.get(key, dflt)`. -/
def dictGetD (ps : List (String × PyVal)) (key : String) (dflt : PyVal) : PyVal :=
  match dictLookup ps key with
  | Option.some v => v
  | Option.none => dflt

/-- A OneBot message segment: a type tag (`"text"`, `"image"`,
`"face"`, `"record"`, ...) and its data dict. -/
structure MessageSegment : Type where
  type : String
  data : List (String × PyVal)

/-- A message: an ordered sequence of segments. -/
abbrev Message := List MessageSegment

/-- Constructor `MessageSegment.text(s)`: a text segment whose data holds exactly
the text. -/
def mkTextSeg (s : String) : MessageSegment :=
  { type := ("text"), data := [(("text"), PyVal.str s)] }

/-- Predicate `_is_unsupported_face`: a face segment whose `raw` data is a dict
whose `faceType` field parses with `int()` to exactly `3`. -/
def isUnsupportedFace (segment : MessageSegment) : Bool :=
  if segment.type ≠ ("face") then false
  else
    match dictGetD segment.data ("raw") PyVal.none with
    | PyVal.dict raw =>
        match pyInt (dictGetD raw ("faceType") PyVal.none) with
        | Option.some n => n = 3
        | Option.none => false
    | _ => false

/-- The tail of `_unsupported_face_placeholder`: `"[表情:<id>]"` when
`data.get("id")` is not `None`, else the literal `"[表情]"`. -/
def fallbackFacePlaceholder (segment : MessageSegment) : String :=
  match dictGetD segment.data ("id") PyVal.none with
  | PyVal.none => ("[表情]")
  | faceId => ("[表情:") ++ pyStr faceId ++ ("]")

/-- Helper `_unsupported_face_placeholder`: prefer the trimmed `raw.faceText`
when `raw` is a dict, then the segment's `id`, then the generic
placeholder. -/
def unsupportedFacePlaceholder (segment : MessageSegment) : String :=
  match dictGetD segment.data ("raw") PyVal.none with
  | PyVal.dict raw =>
      let faceText := pyStrip (pyStr (dictGetD raw ("faceText") (PyVal.str (""))))
      if faceText ≠ ("") then ("[表情:") ++ faceText ++ ("]")
      else fallbackFacePlaceholder segment
  | _ => fallbackFacePlaceholder segment

/-- One step of the `_build_non_voice_message` loop: the zero-or-one
output segment appended for one input segment. -/
def normalizeSegment (segment : MessageSegment) : Option MessageSegment :=
  if segment.type ∈ [("at"), ("reply"), ("record")] then Option.none
  else if segment.type = ("text") then
    if pyStr (dictGetD segment.data ("text") (PyVal.str (""))) ≠ ("") then
      Option.some (mkTextSeg (pyStr (dictGetD segment.data ("text") (PyVal.str ("")))))
    else Option.none
  else if segment.type = ("image") then Option.some segment
  else if segment.type = ("face") then
    if isUnsupportedFace segment then
      Option.some (mkTextSeg (unsupportedFacePlaceholder segment))
    else Option.some segment
  else if segment.type = ("video") then Option.some (mkTextSeg ("[视频]"))
  else if segment.type = ("file") then Option.some (mkTextSeg ("[文件]"))
  else Option.some (mkTextSeg (("[") ++ segment.type ++ ("]")))

/-- Normalizer `_build_non_voice_message`: the loop appends the zero-or-one
output of `normalizeSegment` for each input segment, in order. -/
def buildNonVoiceMessage (message : Message) : Message :=
  message.filterMap normalizeSegment

/-! ### Whitelist configuration (`config.py`) -/

/-- A strict JSON integer literal: an optional minus sign, then digits
with no leading zero. -/
def parseJsonInt (s : String) : Option Int :=
  let (neg, digits) :=
    if headIs ('-') s then (true, strTail s) else (false, s)
  if digits = ("") then Option.none
  else if ¬ digits.data.all Char.isDigit then Option.none
  else if digits.data.length > 1 ∧ headIs ('0') digits then Option.none
  else Option.some ((if neg then (-1 : Int) else 1) * digitsVal digits)

/-- Modelled fragment of Python `json.loads`, restricted to the shapes
the whitelist option can meaningfully carry: a bare integer or a flat
array of integers.  Anything else fails (as `json.loads` fails on
non-JSON input such as `"1,2, 3"`). -/
def jsonLoads (s : String) : Option PyVal :=
  let t := pyStrip s
  if headIs ('[') t then
    if lastIs (']') t then
      let inner := pyStrip (strInner t)
      if inner = ("") then Option.some (PyVal.list [])
      else
        let parts := (splitChar (',') inner).map pyStrip
        match parts.foldr
            (fun p acc =>
              match parseJsonInt p, acc with
              | Option.some n, Option.some xs => Option.some (PyVal.int n :: xs)
              | _, _ => Option.none)
            (Option.some []) with
        | Option.some xs => Option.some (PyVal.list xs)
        | Option.none => Option.none
    else Option.none
  else (parseJsonInt t).map PyVal.int

/-- The set comprehension `{int(item) for item in xs}`: fails as soon
as one `int()` call fails. -/
def intSet : List PyVal → Option (Finset Int)
  | [] => Option.some ∅
  | v :: rest =>
      match pyInt v, intSet rest with
      | Option.some n, Option.some s => Option.some (insert n s)
      | _, _ => Option.none

/-- The body of `_parse_recall_group_whitelist` after the string case
has been resolved (either the original non-string value or the result
of `json.loads`): lists/tuples/sets become `{int(item) ...}`, anything
else becomes the singleton `{int(value)}`.  `Option.none` models the
validator raising, i.e. a startup configuration error. -/
def parseWhitelistValue (value : PyVal) : Option (Finset Int) :=
  match value with
  | PyVal.list xs => intSet xs
  | v => (pyInt v).map (fun n => {n})

/-- Validator `_parse_recall_group_whitelist`: `None` and blank strings give the
empty set; other strings are tried as JSON and, failing that, split on
(full-width or ASCII) commas; containers and scalars go through
`int()`. -/
def parseRecallGroupWhitelist (value : PyVal) : Option (Finset Int) :=
  match value with
  | PyVal.none => Option.some ∅
  | PyVal.str s =>
      let raw := pyStrip s
      if raw = ("") then Option.some ∅
      else
        match jsonLoads raw with
        | Option.some v => parseWhitelistValue v
        | Option.none =>
            let parts := (splitChar (',') (replaceChar ('，') (',') raw)).map pyStrip
            intSet ((parts.filter (fun item => item ≠ (""))).map PyVal.str)
  | v => parseWhitelistValue v

/-! ### Message cache -/

/-- Cache keys: `(group_id, message_id)`. -/
abbrev CacheKey := Int × Int

/-- The cache, as a Python dict: an association list in insertion
order with unique keys; overwriting a present key keeps its position,
a fresh key is appended at the end. -/
abbrev Cache := List (CacheKey × Message)

/-- Python `d[k] = v` on an insertion-ordered dict. -/
def dictPut (cache : Cache) (key : CacheKey) (msg : Message) : Cache :=
  if cache.any (fun p => p.1 = key) then
    cache.map (fun p => if p.1 = key then (key, msg) else p)
  else cache ++ [(key, msg)]

/-- Python `d.pop(k, None)`: the removed value (if any) and the
remaining dict. -/
def dictPop : Cache → CacheKey → Option Message × Cache
  | [], _ => (Option.none, [])
  | p :: rest, key =>
      if p.1 = key then (Option.some p.2, rest)
      else
        let r := dictPop rest key
        (r.1, p :: r.2)

/-- Capacity `_cache_max_size`. -/
def cacheMaxSize : Nat := 5000

/-- The cache insertion performed by the `cache_group_message`
handler: store under the key, then, if the size exceeds the capacity,
pop `next(iter(cache))` — the oldest entry by insertion order. -/
def cachePut (cap : Nat) (cache : Cache) (key : CacheKey) (msg : Message) : Cache :=
  let stored := dictPut cache key msg
  if stored.length > cap then
    match stored with
    | [] => []
    | oldest :: _ => (dictPop stored oldest.1).2
  else stored

/-- A group message event: the fields the caching handler reads. -/
structure GroupMessageEvent : Type where
  group_id : Int
  message_id : Int
  message : Message

/-- The `cache_group_message` handler: whitelisted groups get their
messages stored under `(group_id, message_id)`. -/
def cacheGroupMessage (whitelist : Finset Int) (cache : Cache)
    (event : GroupMessageEvent) : Cache :=
  if event.group_id ∈ whitelist then
    cachePut cacheMaxSize cache (event.group_id, event.message_id) event.message
  else cache

/-! ### Recall handler -/

/-- Outcome of the external `get_msg` call inside
`_get_recalled_message`: the call raises `ActionFailed`, or returns a
payload the adapter cannot parse into a `Message`, or returns a parsed
message. -/
inductive FetchResult : Type where
  | failed : FetchResult
  | unparsable (raw : PyVal) : FetchResult
  | ok (msg : Message) : FetchResult

/-- The external collaborators of the recall handler, as oracles:
`get_group_member_info` (`Option.none` models `ActionFailed`) and
`get_msg`. -/
structure BotEnv : Type where
  member_info : Int → Int → Option (List (String × PyVal))
  get_msg : Int → FetchResult

/-- Python `a or b` on strings. -/
def strOr (a b : String) : String :=
  if a ≠ ("") then a else b

/-- Python `v or ""`. -/
def orEmptyStr (v : PyVal) : PyVal :=
  if pyTruthy v then v else PyVal.str ("")

/-- Helper `_get_member_name`: on `ActionFailed` fall back to `str(user_id)`,
otherwise `card or nickname or str(user_id)` with both fields put
through `str(... or "").strip()`. -/
def getMemberName (env : BotEnv) (group_id user_id : Int) : String :=
  match env.member_info group_id user_id with
  | Option.none => toString user_id
  | Option.some member =>
      let card := pyStrip (pyStr (orEmptyStr (dictGetD member ("card") PyVal.none)))
      let nickname := pyStrip (pyStr (orEmptyStr (dictGetD member ("nickname") PyVal.none)))
      strOr card (strOr nickname (toString user_id))

/-- Helper `_get_recalled_message`: `ActionFailed` and unparsable payloads
both yield `None`. -/
def getRecalledMessage (env : BotEnv) (message_id : Int) : Option Message :=
  match env.get_msg message_id with
  | FetchResult.failed => Option.none
  | FetchResult.unparsable _ => Option.none
  | FetchResult.ok msg => Option.some msg

/-- A group recall notice event: the fields the recall handler reads. -/
structure GroupRecallNoticeEvent : Type where
  group_id : Int
  user_id : Int
  operator_id : Int
  message_id : Int

/-- The content-resolution step of the recall handler: the cache entry
if present, otherwise the live fetch. -/
def resolveRecalledMessage (env : BotEnv) (cache : Cache)
    (event : GroupRecallNoticeEvent) : Option Message :=
  match (dictPop cache (event.group_id, event.message_id)).1 with
  | Option.some msg => Option.some msg
  | Option.none => getRecalledMessage env event.message_id

/-- One outbound `send_group_msg` call: either a plain string payload
or a structured `Message`. -/
inductive OutMessage : Type where
  | text (group_id : Int) (s : String) : OutMessage
  | message (group_id : Int) (msg : Message) : OutMessage

/-- Result of one run of the recall handler: the outbound sends in
order, and the cache state it leaves behind. -/
structure HandlerResult : Type where
  sends : List OutMessage
  cache : Cache

/-- The `group_recall` handler.  Whitelist gate, self-recall gate,
name resolution, cache pop with live-fetch fallback, then the
unavailable / voice / normalized-content branches. -/
def groupRecallHandler (whitelist : Finset Int) (env : BotEnv) (cache : Cache)
    (event : GroupRecallNoticeEvent) : HandlerResult :=
  if event.group_id ∉ whitelist then { sends := [], cache := cache }
  else if event.user_id ≠ event.operator_id then { sends := [], cache := cache }
  else
    let name := getMemberName env event.group_id event.user_id
    let popped := dictPop cache (event.group_id, event.message_id)
    match resolveRecalledMessage env cache event with
    | Option.none =>
        { sends := [OutMessage.text event.group_id (name ++ ("撤回了一条消息：[内容未捕获]"))],
          cache := popped.2 }
    | Option.some msg =>
        let voice := msg.filter (fun segment => segment.type = ("record"))
        if !voice.isEmpty then
          { sends := OutMessage.text event.group_id (name ++ ("撤回了一条语音")) ::
              voice.map (fun segment => OutMessage.message event.group_id [segment]),
            cache := popped.2 }
        else
          let content := buildNonVoiceMessage msg
          if content.isEmpty then
            { sends := [OutMessage.text event.group_id (name ++ ("撤回了一条消息：[空消息]"))],
              cache := popped.2 }
          else
            { sends := [OutMessage.message event.group_id
                (mkTextSeg (name ++ ("撤回了一条消息：")) :: content)],
              cache := popped.2 }

/-! ### Claim-side definitions and concrete fixtures -/

/-- The input shapes claim C7 lists as parseable: absent/`None`, a
native list of integers, or a string (covering both the JSON-array and
the comma-delimited forms). -/
def isClaimedWhitelistForm : PyVal → Bool
  | PyVal.none => true
  | PyVal.str _ => true
  | PyVal.list xs =>
      xs.all (fun v => match v with | PyVal.int _ => true | _ => false)
  | _ => false

/-- The first string field of a member dict, read the way claim C10
describes it (empty when absent or not a string). -/
def memberFieldStr (member : List (String × PyVal)) (key : String) : String :=
  match dictLookup member key with
  | Option.some (PyVal.str s) => s
  | _ => ("")

/-- Display-name selection as claim C10 states it: trimmed `card` if
non-empty, else trimmed `nickname` if non-empty, else `str(user_id)`. -/
def claimDisplayName (member : List (String × PyVal)) (user_id : Int) : String :=
  let card := pyStrip (memberFieldStr member ("card"))
  let nickname := pyStrip (memberFieldStr member ("nickname"))
  if card ≠ ("") then card
  else if nickname ≠ ("") then nickname
  else toString user_id

/-- An `at` segment mentioning user 123. -/
def atSeg123 : MessageSegment :=
  { type := ("at"), data := [(("qq"), PyVal.int 123)] }

/-- An image segment with an opaque file reference. -/
def imageRef : MessageSegment :=
  { type := ("image"), data := [(("file"), PyVal.str ("ref"))] }

/-- A voice (`record`) segment with an opaque file reference. -/
def recordRef : MessageSegment :=
  { type := ("record"), data := [(("file"), PyVal.str ("ref"))] }

/-- An unsupported extended face carrying `faceText` `"赞"`. -/
def faceZan : MessageSegment :=
  { type := ("face"),
    data := [(("raw"),
      PyVal.dict [(("faceType"), PyVal.int 3), (("faceText"), PyVal.str ("赞"))])] }

/-- An unsupported extended face with no `faceText` but id 76. -/
def face76 : MessageSegment :=
  { type := ("face"),
    data := [(("id"), PyVal.int 76),
             (("raw"), PyVal.dict [(("faceType"), PyVal.int 3)])] }

/-- An ordinary face segment: `faceType` absent from its raw data. -/
def faceNoType : MessageSegment :=
  { type := ("face"), data := [(("id"), PyVal.int 1)] }

/-- A bot environment whose collaborators always fail. -/
def envFail : BotEnv :=
  { member_info := fun _ _ => Option.none,
    get_msg := fun _ => FetchResult.failed }

/-- A member dict with a padded card and no nickname. -/
def memberCardOnly : List (String × PyVal) :=
  [(("card"), PyVal.str ("  C  "))]

/-- A bot environment whose member lookup returns `memberCardOnly`. -/
def envMember : BotEnv :=
  { member_info := fun _ _ => Option.some memberCardOnly,
    get_msg := fun _ => FetchResult.failed }

/-! ### Helper lemmas -/

theorem str_append_ne_empty (a b : String) (h : a ≠ ("")) : a ++ b ≠ ("") := by
  intro hc
  apply h
  have hd := congrArg String.data hc
  rw [String.data_append] at hd
  exact String.ext (List.append_eq_nil.mp hd).1

theorem fallbackFacePlaceholder_ne_empty (s : MessageSegment) :
    fallbackFacePlaceholder s ≠ ("") := by
  unfold fallbackFacePlaceholder
  split
  · decide
  · exact str_append_ne_empty _ _ (str_append_ne_empty _ _ (by decide))

theorem facePlaceholderBranch_ne_empty (t : String) (s : MessageSegment) :
    (if t ≠ ("") then ("[表情:") ++ t ++ ("]") else fallbackFacePlaceholder s) ≠ ("") := by
  split
  · exact str_append_ne_empty _ _ (str_append_ne_empty _ _ (by decide))
  · exact fallbackFacePlaceholder_ne_empty s

theorem unsupportedFacePlaceholder_ne_empty (s : MessageSegment) :
    unsupportedFacePlaceholder s ≠ ("") := by
  unfold unsupportedFacePlaceholder
  split
  · exact facePlaceholderBranch_ne_empty _ s
  · exact fallbackFacePlaceholder_ne_empty s

theorem dictPut_fresh (cache : Cache) (key : CacheKey) (msg : Message)
    (h : ∀ p ∈ cache, p.1 ≠ key) : dictPut cache key msg = cache ++ [(key, msg)] := by
  unfold dictPut
  rw [if_neg]
  simp only [List.any_eq_true, decide_eq_true_eq, not_exists]
  rintro p ⟨hp, hk⟩
  exact h p hp hk

theorem dictPop_cons_self (p : CacheKey × Message) (rest : Cache) :
    dictPop (p :: rest) p.1 = (Option.some p.2, rest) := by
  simp [dictPop]

theorem dictPop_length_le (cache : Cache) (key : CacheKey) :
    (dictPop cache key).2.length ≤ cache.length := by
  induction cache with
  | nil => simp [dictPop]
  | cons p rest ih =>
      simp only [dictPop]
      split
      · simp
      · simpa using Nat.succ_le_succ ih

theorem cachePut_no_evict (cap : Nat) (cache : Cache) (key : CacheKey) (msg : Message)
    (hfresh : ∀ p ∈ cache, p.1 ≠ key) (hlen : cache.length + 1 ≤ cap) :
    cachePut cap cache key msg = cache ++ [(key, msg)] := by
  unfold cachePut
  rw [dictPut_fresh cache key msg hfresh, if_neg]
  simp only [List.length_append, List.length_singleton]
  omega

theorem cachePut_evict (cap : Nat) (cache : Cache) (key : CacheKey) (msg : Message)
    (hfresh : ∀ p ∈ cache, p.1 ≠ key) (hlen : cache.length = cap) (hcap : 1 ≤ cap) :
    cachePut cap cache key msg = cache.tail ++ [(key, msg)] := by
  obtain ⟨p, rest, rfl⟩ : ∃ p rest, cache = p :: rest := by
    cases cache with
    | nil => simp at hlen; omega
    | cons p rest => exact ⟨p, rest, rfl⟩
  unfold cachePut
  rw [dictPut_fresh _ _ _ hfresh, if_pos]
  · show (dictPop (p :: (rest ++ [(key, msg)])) p.1).2 = _
    rw [dictPop_cons_self]
    rfl
  · rw [List.length_append, hlen]
    simp only [List.length_singleton]
    omega

theorem foldl_cachePut_keys (cap : Nat) (f : CacheKey → Message) :
    ∀ (ks : List CacheKey) (cache : Cache),
      (cache.map Prod.fst ++ ks).Nodup →
      cache.length + ks.length ≤ cap →
      ((ks.foldl (fun c k => cachePut cap c k (f k)) cache).map Prod.fst)
        = cache.map Prod.fst ++ ks := by
  intro ks
  induction ks with
  | nil => intro cache _ _; simp
  | cons k rest ih =>
      intro cache hnd hlen
      have hfresh : ∀ p ∈ cache, p.1 ≠ k := by
        intro p hp hk
        rw [List.nodup_append] at hnd
        exact hnd.2.2 (List.mem_map_of_mem Prod.fst hp) (by simp [hk])
      have hstep : cachePut cap cache k (f k) = cache ++ [(k, f k)] := by
        apply cachePut_no_evict cap cache k (f k) hfresh
        simp only [List.length_cons] at hlen
        omega
      have hnd2 : ((cache ++ [(k, f k)]).map Prod.fst ++ rest).Nodup := by
        simpa [List.append_assoc] using hnd
      have hlen2 : (cache ++ [(k, f k)]).length + rest.length ≤ cap := by
        simp only [List.length_append, List.length_singleton]
        simp only [List.length_cons] at hlen
        omega
      calc ((rest.foldl (fun c k => cachePut cap c k (f k)) (cachePut cap cache k (f k))).map Prod.fst)
          = ((rest.foldl (fun c k => cachePut cap c k (f k)) (cache ++ [(k, f k)])).map Prod.fst) := by
            rw [hstep]
        _ = (cache ++ [(k, f k)]).map Prod.fst ++ rest := ih _ hnd2 hlen2
        _ = cache.map Prod.fst ++ (k :: rest) := by simp

theorem dictPut_length_le (cache : Cache) (key : CacheKey) (msg : Message) :
    (dictPut cache key msg).length ≤ cache.length + 1 := by
  unfold dictPut
  split
  · simp
  · simp

theorem cachePut_length_le (cap : Nat) (cache : Cache) (key : CacheKey) (msg : Message)
    (h : cache.length ≤ cap) : (cachePut cap cache key msg).length ≤ cap := by
  simp only [cachePut]
  split
  · split
    · simp
    · rename_i o t heq
      rw [heq, dictPop_cons_self]
      show t.length ≤ cap
      have hd := dictPut_length_le cache key msg
      rw [heq] at hd
      simp only [List.length_cons] at hd
      omega
  · omega

theorem groupRecallHandler_cache_cases (whitelist : Finset Int) (env : BotEnv)
    (cache : Cache) (event : GroupRecallNoticeEvent) :
    (groupRecallHandler whitelist env cache event).cache = cache
    ∨ (groupRecallHandler whitelist env cache event).cache
        = (dictPop cache (event.group_id, event.message_id)).2 := by
  simp only [groupRecallHandler]
  repeat' split
  all_goals first
    | exact Or.inl rfl
    | exact Or.inr rfl

/-! ### Claim theorems -/

/-- C2: starting from the empty cache, inserting `capacity + 1`
distinct keys leaves exactly `capacity` entries and evicts exactly the
first-inserted key (the surviving keys are `ks.tail`, in order); and
in general a put of a fresh key into a full cache evicts exactly the
single oldest-inserted entry. -/
theorem c2_fifo_eviction :
    (∀ (cap : Nat) (ks : List CacheKey) (f : CacheKey → Message),
      1 ≤ cap → ks.Nodup → ks.length = cap + 1 →
      ((ks.foldl (fun c k => cachePut cap c k (f k)) []).map Prod.fst) = ks.tail)
    ∧ (∀ (cap : Nat) (cache : Cache) (key : CacheKey) (msg : Message),
      1 ≤ cap → cache.length = cap → (∀ p ∈ cache, p.1 ≠ key) →
      cachePut cap cache key msg = cache.tail ++ [(key, msg)]) := by
  constructor
  · intro cap ks f hcap hnd hlen
    obtain rfl | ⟨front, last, rfl⟩ := ks.eq_nil_or_concat
    · simp at hlen
    · rw [List.concat_eq_append] at hnd hlen ⊢
      rw [List.foldl_append, List.foldl_cons, List.foldl_nil]
      rw [List.nodup_append] at hnd
      obtain ⟨hndf, _, hdisj⟩ := hnd
      have hlenf : front.length = cap := by
        simp only [List.length_append, List.length_singleton] at hlen
        omega
      have hkeys := foldl_cachePut_keys cap f front [] (by simpa using hndf)
        (by simp [hlenf])
      have hCfst : (front.foldl (fun c k => cachePut cap c k (f k)) []).map Prod.fst
          = front := by simpa using hkeys
      have hClen : (front.foldl (fun c k => cachePut cap c k (f k)) []).length = cap := by
        have := congrArg List.length hCfst
        simpa [hlenf] using this
      have hfreshC : ∀ p ∈ front.foldl (fun c k => cachePut cap c k (f k)) [],
          p.1 ≠ last := by
        intro p hp hk
        have hmem : p.1 ∈ front := hCfst ▸ List.mem_map_of_mem Prod.fst hp
        exact hdisj (hk ▸ hmem) (by simp)
      rw [cachePut_evict cap _ last (f last) hfreshC hClen hcap]
      rw [List.map_append]
      have htail : ∀ l : Cache, (l.tail).map Prod.fst = (l.map Prod.fst).tail := by
        intro l
        cases l <;> simp
      rw [htail, hCfst]
      obtain ⟨q, front2, rfl⟩ : ∃ q front2, front = q :: front2 := by
        cases front with
        | nil => simp at hlenf; omega
        | cons q front2 => exact ⟨q, front2, rfl⟩
      simp
  · intro cap cache key msg hcap hlen hfresh
    exact cachePut_evict cap cache key msg hfresh hlen hcap

/-- Witness for C2: capacity 3, four distinct keys inserted in
sequence; key 1 is evicted and keys 2–4 survive in order. -/
theorem c2_fifo_eviction_witness :
    (([((1 : Int), (1 : Int)), (1, 2), (1, 3), (1, 4)].foldl
        (fun c k => cachePut 3 c k []) []).map Prod.fst)
      = [(1, 2), (1, 3), (1, 4)] := by
  have h := c2_fifo_eviction.1 3 [(1, 1), (1, 2), (1, 3), (1, 4)] (fun _ => [])
    (by decide) (by decide) (by decide)
  exact h

/-- C8: on any cache state within capacity (5000), both handlers —
the caching handler and the recall handler — leave the cache within
capacity; a put into a full cache under a fresh key evicts exactly
the single oldest-inserted entry. -/
theorem c8_cache_capacity_invariant :
    ∀ (whitelist : Finset Int) (cache : Cache),
      cache.length ≤ cacheMaxSize →
      (∀ event : GroupMessageEvent,
        (cacheGroupMessage whitelist cache event).length ≤ cacheMaxSize)
      ∧ (∀ (env : BotEnv) (event : GroupRecallNoticeEvent),
        (groupRecallHandler whitelist env cache event).cache.length ≤ cacheMaxSize)
      ∧ (∀ event : GroupMessageEvent,
        event.group_id ∈ whitelist →
        cache.length = cacheMaxSize →
        (∀ p ∈ cache, p.1 ≠ (event.group_id, event.message_id)) →
        cacheGroupMessage whitelist cache event
          = cache.tail ++ [((event.group_id, event.message_id), event.message)]) := by
  intro whitelist cache h
  refine ⟨?_, ?_, ?_⟩
  · intro event
    unfold cacheGroupMessage
    split
    · exact cachePut_length_le _ _ _ _ h
    · exact h
  · intro env event
    rcases groupRecallHandler_cache_cases whitelist env cache event with hc | hc
    · rw [hc]; exact h
    · rw [hc]; exact le_trans (dictPop_length_le _ _) h
  · intro event hmem hlen hfresh
    unfold cacheGroupMessage
    rw [if_pos hmem]
    exact cachePut_evict cacheMaxSize cache _ _ hfresh hlen (by decide)

/-- Witness for C8: the empty cache under both handlers. -/
theorem c8_cache_capacity_invariant_witness :
    (cacheGroupMessage {1} [] { group_id := 1, message_id := 1, message := [] }).length
      ≤ cacheMaxSize
    ∧ (groupRecallHandler {1} envFail []
        { group_id := 1, user_id := 7, operator_id := 7, message_id := 1 }).cache.length
      ≤ cacheMaxSize := by
  have h := c8_cache_capacity_invariant {1} [] (Nat.zero_le _)
  exact ⟨h.1 _, h.2.1 envFail _⟩

/-! ### Normalizer lemmas -/

theorem buildNonVoiceMessage_singleton (s : MessageSegment) :
    buildNonVoiceMessage [s] = (normalizeSegment s).toList := by
  cases h : normalizeSegment s <;> simp [buildNonVoiceMessage, h]

theorem normalizeSegment_drop (s : MessageSegment)
    (h : s.type ∈ [("at"), ("reply"), ("record")]) :
    normalizeSegment s = Option.none := by
  unfold normalizeSegment
  rw [if_pos h]

theorem normalizeSegment_text (s : MessageSegment) (h : s.type = ("text")) :
    normalizeSegment s =
      (if pyStr (dictGetD s.data ("text") (PyVal.str (""))) = ("") then Option.none
       else Option.some (mkTextSeg (pyStr (dictGetD s.data ("text") (PyVal.str ("")))))) := by
  unfold normalizeSegment
  rw [if_neg (by rw [h]; decide), if_pos h]
  by_cases hp : pyStr (dictGetD s.data ("text") (PyVal.str (""))) = ("")
  · rw [if_pos hp, if_neg (not_not_intro hp)]
  · rw [if_neg hp, if_pos hp]

theorem normalizeSegment_image (s : MessageSegment) (h : s.type = ("image")) :
    normalizeSegment s = Option.some s := by
  unfold normalizeSegment
  rw [if_neg (by rw [h]; decide), if_neg (by rw [h]; decide), if_pos h]

theorem normalizeSegment_face (s : MessageSegment) (h : s.type = ("face")) :
    normalizeSegment s =
      (if isUnsupportedFace s then
        Option.some (mkTextSeg (unsupportedFacePlaceholder s))
       else Option.some s) := by
  unfold normalizeSegment
  rw [if_neg (by rw [h]; decide), if_neg (by rw [h]; decide),
    if_neg (by rw [h]; decide), if_pos h]

theorem normalizeSegment_video (s : MessageSegment) (h : s.type = ("video")) :
    normalizeSegment s = Option.some (mkTextSeg ("[视频]")) := by
  unfold normalizeSegment
  rw [if_neg (by rw [h]; decide), if_neg (by rw [h]; decide),
    if_neg (by rw [h]; decide), if_neg (by rw [h]; decide), if_pos h]

theorem normalizeSegment_file (s : MessageSegment) (h : s.type = ("file")) :
    normalizeSegment s = Option.some (mkTextSeg ("[文件]")) := by
  unfold normalizeSegment
  rw [if_neg (by rw [h]; decide), if_neg (by rw [h]; decide),
    if_neg (by rw [h]; decide), if_neg (by rw [h]; decide),
    if_neg (by rw [h]; decide), if_pos h]

theorem normalizeSegment_other (s : MessageSegment)
    (h : s.type ∉ [("at"), ("reply"), ("record"), ("text"), ("image"),
      ("face"), ("video"), ("file")]) :
    normalizeSegment s = Option.some (mkTextSeg (("[") ++ s.type ++ ("]"))) := by
  simp only [List.mem_cons, List.not_mem_nil, or_false, not_or] at h
  obtain ⟨h1, h2, h3, h4, h5, h6, h7, h8⟩ := h
  unfold normalizeSegment
  rw [if_neg (by simp [h1, h2, h3]), if_neg h4, if_neg h5, if_neg h6,
    if_neg h7, if_neg h8]

theorem normalizeSegment_mkTextSeg (u : String) (hu : u ≠ ("")) :
    normalizeSegment (mkTextSeg u) = Option.some (mkTextSeg u) := by
  rw [normalizeSegment_text (mkTextSeg u) rfl]
  rw [if_neg]
  · rfl
  · exact hu

theorem normalizeSegment_text_shape (s t : MessageSegment)
    (hn : normalizeSegment s = Option.some t) (ht : t.type = ("text")) :
    ∃ u, t = mkTextSeg u ∧ u ≠ ("") := by
  unfold normalizeSegment at hn
  split at hn
  · exact Option.noConfusion hn
  split at hn
  · split at hn
    · rename_i hne
      exact ⟨_, (Option.some.inj hn).symm, hne⟩
    · exact Option.noConfusion hn
  split at hn
  · rename_i hmem htext himg
    rw [← Option.some.inj hn, himg] at ht
    exact absurd ht (by decide)
  split at hn
  · split at hn
    · exact ⟨_, (Option.some.inj hn).symm, unsupportedFacePlaceholder_ne_empty s⟩
    · rename_i hmem htext himg hface _
      rw [← Option.some.inj hn, hface] at ht
      exact absurd ht (by decide)
  split at hn
  · exact ⟨_, (Option.some.inj hn).symm, by decide⟩
  split at hn
  · exact ⟨_, (Option.some.inj hn).symm, by decide⟩
  · exact ⟨_, (Option.some.inj hn).symm,
      str_append_ne_empty _ _ (str_append_ne_empty _ _ (by decide))⟩

theorem filterMap_normalize_id (l : Message)
    (h : ∀ x ∈ l, normalizeSegment x = Option.some x) :
    l.filterMap normalizeSegment = l := by
  induction l with
  | nil => rfl
  | cons a t ih =>
      rw [List.filterMap_cons, h a (by simp)]
      rw [ih (fun x hx => h x (by simp [hx]))]

/-- C3 counterexample: a `face` segment is not one of the kinds the
claim enumerates (`at`/`reply`/`record`/`text`/`image`/`video`/`file`),
so the claim's catch-all rule demands the placeholder `"[<kind>]"`;
the normalizer instead passes an ordinary face segment through
unchanged. -/
theorem c3_counterexample :
    buildNonVoiceMessage [faceNoType] = [faceNoType]
    ∧ faceNoType.type ∉ [("at"), ("reply"), ("record"), ("text"), ("image"),
        ("video"), ("file")]
    ∧ buildNonVoiceMessage [faceNoType]
        ≠ [mkTextSeg (("[") ++ faceNoType.type ++ ("]"))] := by
  refine ⟨rfl, by decide, ?_⟩
  intro h
  have h1 : ([faceNoType] : Message) = [mkTextSeg (("[") ++ faceNoType.type ++ ("]"))] := h
  injection h1 with h2 _
  have h3 := congrArg MessageSegment.type h2
  exact absurd h3 (by decide)

/-- C3 (amended): the normalizer processes segments in original order
(it distributes over append) and maps each segment by kind —
`at`/`reply`/`record` dropped; `text` kept verbatim iff non-empty
after to-string conversion; `image` unchanged; a `face` passed through
unless classified unsupported, in which case it becomes its text
placeholder; `video` → `"[视频]"`; `file` → `"[文件]"`; any other kind
→ `"[<kind>]"`; and the claim's concrete example. -/
theorem c3_normalizer_rules :
    (∀ m1 m2 : Message,
      buildNonVoiceMessage (m1 ++ m2) = buildNonVoiceMessage m1 ++ buildNonVoiceMessage m2)
    ∧ (∀ s : MessageSegment, s.type ∈ [("at"), ("reply"), ("record")] →
        buildNonVoiceMessage [s] = [])
    ∧ (∀ s : MessageSegment, s.type = ("text") →
        buildNonVoiceMessage [s] =
          (if pyStr (dictGetD s.data ("text") (PyVal.str (""))) = ("") then []
           else [mkTextSeg (pyStr (dictGetD s.data ("text") (PyVal.str (""))))]))
    ∧ (∀ s : MessageSegment, s.type = ("image") → buildNonVoiceMessage [s] = [s])
    ∧ (∀ s : MessageSegment, s.type = ("face") →
        buildNonVoiceMessage [s] =
          (if isUnsupportedFace s then [mkTextSeg (unsupportedFacePlaceholder s)] else [s]))
    ∧ (∀ s : MessageSegment, s.type = ("video") →
        buildNonVoiceMessage [s] = [mkTextSeg ("[视频]")])
    ∧ (∀ s : MessageSegment, s.type = ("file") →
        buildNonVoiceMessage [s] = [mkTextSeg ("[文件]")])
    ∧ (∀ s : MessageSegment,
        s.type ∉ [("at"), ("reply"), ("record"), ("text"), ("image"),
          ("face"), ("video"), ("file")] →
        buildNonVoiceMessage [s] = [mkTextSeg (("[") ++ s.type ++ ("]"))])
    ∧ buildNonVoiceMessage [mkTextSeg ("hi"), atSeg123, imageRef, recordRef]
        = [mkTextSeg ("hi"), imageRef] := by
  refine ⟨?_, ?_, ?_, ?_, ?_, ?_, ?_, ?_, rfl⟩
  · intro m1 m2
    simp [buildNonVoiceMessage]
  · intro s h
    rw [buildNonVoiceMessage_singleton, normalizeSegment_drop s h]
    rfl
  · intro s h
    rw [buildNonVoiceMessage_singleton, normalizeSegment_text s h]
    split <;> rfl
  · intro s h
    rw [buildNonVoiceMessage_singleton, normalizeSegment_image s h]
    rfl
  · intro s h
    rw [buildNonVoiceMessage_singleton, normalizeSegment_face s h]
    split <;> rfl
  · intro s h
    rw [buildNonVoiceMessage_singleton, normalizeSegment_video s h]
    rfl
  · intro s h
    rw [buildNonVoiceMessage_singleton, normalizeSegment_file s h]
    rfl
  · intro s h
    rw [buildNonVoiceMessage_singleton, normalizeSegment_other s h]
    rfl

/-- Witness for C3 (amended): the per-kind rules applied to a concrete
video segment. -/
theorem c3_normalizer_rules_witness :
    buildNonVoiceMessage [{ type := ("video"), data := [] }] = [mkTextSeg ("[视频]")] :=
  c3_normalizer_rules.2.2.2.2.2.1 { type := ("video"), data := [] } rfl

/-- C4: a face segment is replaced by a text placeholder iff its `raw`
data is a dict whose `faceType` parses as the integer 3 (any parse
failure passes the face through unchanged); for a face with dict raw
data the placeholder prefers the trimmed `faceText`, then the `id`,
then the generic `"[表情]"`; with the claim's three concrete
examples. -/
theorem c4_face_rules :
    (∀ s : MessageSegment, s.type = ("face") →
      ((isUnsupportedFace s = true ↔
          ∃ raw, dictGetD s.data ("raw") PyVal.none = PyVal.dict raw
            ∧ pyInt (dictGetD raw ("faceType") PyVal.none) = Option.some 3)
       ∧ buildNonVoiceMessage [s] =
          (if isUnsupportedFace s then [mkTextSeg (unsupportedFacePlaceholder s)] else [s])
       ∧ (∀ raw, dictGetD s.data ("raw") PyVal.none = PyVal.dict raw →
          unsupportedFacePlaceholder s =
            (if pyStrip (pyStr (dictGetD raw ("faceText") (PyVal.str ("")))) ≠ ("") then
              ("[表情:") ++ pyStrip (pyStr (dictGetD raw ("faceText") (PyVal.str ("")))) ++ ("]")
             else
              match dictGetD s.data ("id") PyVal.none with
              | PyVal.none => ("[表情]")
              | v => ("[表情:") ++ pyStr v ++ ("]")))))
    ∧ buildNonVoiceMessage [faceZan] = [mkTextSeg ("[表情:赞]")]
    ∧ buildNonVoiceMessage [face76] = [mkTextSeg ("[表情:76]")]
    ∧ buildNonVoiceMessage [faceNoType] = [faceNoType] := by
  refine ⟨?_, rfl, ?_, rfl⟩
  · intro s h
    refine ⟨?_, ?_, ?_⟩
    · unfold isUnsupportedFace
      rw [if_neg (not_not_intro h)]
      cases hr : dictGetD s.data ("raw") PyVal.none <;> simp [hr]
      cases hp : pyInt (dictGetD _ ("faceType") PyVal.none) <;> simp [hp]
    · rw [buildNonVoiceMessage_singleton, normalizeSegment_face s h]
      split <;> rfl
    · intro raw hr
      simp only [unsupportedFacePlaceholder, hr, fallbackFacePlaceholder]
  · rfl

/-- Witness for C4: the face-branch behavior at the concrete
`faceZan` segment. -/
theorem c4_face_rules_witness :
    buildNonVoiceMessage [faceZan] =
      (if isUnsupportedFace faceZan then
        [mkTextSeg (unsupportedFacePlaceholder faceZan)]
       else [faceZan]) :=
  (c4_face_rules.1 faceZan rfl).2.1

/-- C9: the normalizer is idempotent on already-normalized content:
whenever its output contains only `text` and `image` segments, running
it again on that output reproduces it exactly. -/
theorem c9_normalizer_idempotent :
    ∀ message : Message,
      (∀ s ∈ buildNonVoiceMessage message, s.type = ("text") ∨ s.type = ("image")) →
      buildNonVoiceMessage (buildNonVoiceMessage message) = buildNonVoiceMessage message := by
  intro message h
  apply filterMap_normalize_id
  intro x hx
  rcases h x hx with htext | himg
  · obtain ⟨a, _, hna⟩ := List.mem_filterMap.mp hx
    obtain ⟨u, rfl, hu⟩ := normalizeSegment_text_shape a x hna htext
    exact normalizeSegment_mkTextSeg u hu
  · exact normalizeSegment_image x himg

/-- Witness for C9: a concrete message whose normalization is pure
text-and-image content. -/
theorem c9_normalizer_idempotent_witness :
    (∀ s ∈ buildNonVoiceMessage [mkTextSeg ("hi"), atSeg123, imageRef],
      s.type = ("text") ∨ s.type = ("image"))
    ∧ buildNonVoiceMessage (buildNonVoiceMessage [mkTextSeg ("hi"), atSeg123, imageRef])
        = buildNonVoiceMessage [mkTextSeg ("hi"), atSeg123, imageRef] :=
  ⟨by decide, c9_normalizer_idempotent [mkTextSeg ("hi"), atSeg123, imageRef] (by decide)⟩

theorem intSet_map_int (xs : List Int) :
    intSet (xs.map PyVal.int) = Option.some xs.toFinset := by
  induction xs with
  | nil => rfl
  | cons a t ih => simp [intSet, pyInt, ih]

/-- C7 counterexample: a bare integer is a present config value that is
none of the claim's accepted forms (absent/`None`, native integer
list, JSON-array string, comma-delimited string), yet the parser does
not fail on it — it returns the singleton whitelist. -/
theorem c7_counterexample :
    isClaimedWhitelistForm (PyVal.int 5) = false
    ∧ parseRecallGroupWhitelist (PyVal.int 5) = Option.some ({5} : Finset Int) :=
  ⟨rfl, rfl⟩

/-- C7 (amended): absent/`None` parses to the empty set; a native list
of integers to the corresponding set; the JSON-array string and the
comma-delimited strings (ASCII or full-width commas) to `{1,2,3}`; a
bare integer scalar parses to the singleton set rather than failing;
values not convertible to integers (a dict, a non-numeric string) fail
to parse as a startup configuration error. -/
theorem c7_whitelist_parse :
    parseRecallGroupWhitelist PyVal.none = Option.some ∅
    ∧ (∀ xs : List Int, parseRecallGroupWhitelist (PyVal.list (xs.map PyVal.int))
        = Option.some xs.toFinset)
    ∧ parseRecallGroupWhitelist (PyVal.str ("[1,2,3]")) = Option.some ({1, 2, 3} : Finset Int)
    ∧ parseRecallGroupWhitelist (PyVal.str ("1,2, 3")) = Option.some ({1, 2, 3} : Finset Int)
    ∧ parseRecallGroupWhitelist (PyVal.str ("1，2， 3")) = Option.some ({1, 2, 3} : Finset Int)
    ∧ (∀ n : Int, parseRecallGroupWhitelist (PyVal.int n) = Option.some ({n} : Finset Int))
    ∧ (∀ ps : List (String × PyVal), parseRecallGroupWhitelist (PyVal.dict ps) = Option.none)
    ∧ parseRecallGroupWhitelist (PyVal.str ("abc")) = Option.none := by
  refine ⟨rfl, ?_, rfl, rfl, rfl, fun n => rfl, fun ps => rfl, rfl⟩
  intro xs
  exact intSet_map_int xs

/-- C1: for a whitelisted self-recall whose resolved content contains
at least one voice (`record`) segment, the handler sends exactly the
text summary `"<name>撤回了一条语音"` followed by each voice segment as
its own outbound message, in original order — `1 + n` sends in total
and no normalized-text notice. -/
theorem c1_voice_recall :
    ∀ (whitelist : Finset Int) (env : BotEnv) (cache : Cache)
      (event : GroupRecallNoticeEvent) (msg : Message),
      event.group_id ∈ whitelist →
      event.user_id = event.operator_id →
      resolveRecalledMessage env cache event = Option.some msg →
      msg.filter (fun segment => segment.type = ("record")) ≠ [] →
      (groupRecallHandler whitelist env cache event).sends
        = OutMessage.text event.group_id
            (getMemberName env event.group_id event.user_id ++ ("撤回了一条语音"))
          :: (msg.filter (fun segment => segment.type = ("record"))).map
              (fun segment => OutMessage.message event.group_id [segment])
      ∧ (groupRecallHandler whitelist env cache event).sends.length
          = 1 + (msg.filter (fun segment => segment.type = ("record"))).length := by
  intro whitelist env cache event msg hmem heq hres hvoice
  have hb : (msg.filter (fun segment => segment.type = ("record"))).isEmpty = false := by
    cases hfil : msg.filter (fun segment => segment.type = ("record")) with
    | nil => exact absurd hfil hvoice
    | cons a t => rfl
  simp only [groupRecallHandler]
  rw [if_neg (not_not_intro hmem), if_neg (not_not_intro heq), hres]
  dsimp only
  rw [if_pos (by rw [hb]; rfl)]
  exact ⟨rfl, by simp [Nat.add_comm]⟩

/-- Witness for C1: a cache hit holding a single voice segment leads
to exactly two sends — summary text then the voice segment. -/
theorem c1_voice_recall_witness :
    (groupRecallHandler {1} envFail [((1, 100), [recordRef])]
      { group_id := 1, user_id := 7, operator_id := 7, message_id := 100 }).sends
      = OutMessage.text 1 (getMemberName envFail 1 7 ++ ("撤回了一条语音"))
        :: (([recordRef] : Message).filter (fun segment => segment.type = ("record"))).map
            (fun segment => OutMessage.message 1 [segment]) :=
  (c1_voice_recall {1} envFail [((1, 100), [recordRef])]
    { group_id := 1, user_id := 7, operator_id := 7, message_id := 100 } [recordRef]
    (by decide) rfl rfl (fun hc => List.noConfusion hc)).1

/-- C5: for a whitelisted self-recall where the cache has no entry and
the live fetch fails (or returns unparsable content), exactly one
outbound message is sent — the `"[内容未捕获]"` notice; the handler
returns normally, so the fetch failure never escapes. -/
theorem c5_unavailable_recall :
    ∀ (whitelist : Finset Int) (env : BotEnv) (cache : Cache)
      (event : GroupRecallNoticeEvent),
      event.group_id ∈ whitelist →
      event.user_id = event.operator_id →
      (dictPop cache (event.group_id, event.message_id)).1 = Option.none →
      getRecalledMessage env event.message_id = Option.none →
      (groupRecallHandler whitelist env cache event).sends
        = [OutMessage.text event.group_id
            (getMemberName env event.group_id event.user_id
              ++ ("撤回了一条消息：[内容未捕获]"))] := by
  intro whitelist env cache event hmem heq hpop hfetch
  have hres : resolveRecalledMessage env cache event = Option.none := by
    unfold resolveRecalledMessage
    rw [hpop, hfetch]
  simp only [groupRecallHandler]
  rw [if_neg (not_not_intro hmem), if_neg (not_not_intro heq), hres]

/-- Witness for C5: empty cache and an always-failing fetch produce
the single fallback notice. -/
theorem c5_unavailable_recall_witness :
    (groupRecallHandler {1} envFail []
      { group_id := 1, user_id := 7, operator_id := 7, message_id := 100 }).sends
      = [OutMessage.text 1 (getMemberName envFail 1 7 ++ ("撤回了一条消息：[内容未捕获]"))] :=
  c5_unavailable_recall {1} envFail []
    { group_id := 1, user_id := 7, operator_id := 7, message_id := 100 }
    (by decide) rfl rfl rfl

/-- C6: a recall notice from a non-whitelisted group, or whose
recalled-user id differs from the operator id, is a complete no-op —
no sends, and the cache (including any entry for that message) is left
untouched. -/
theorem c6_reject_noop :
    ∀ (whitelist : Finset Int) (env : BotEnv) (cache : Cache)
      (event : GroupRecallNoticeEvent),
      event.group_id ∉ whitelist ∨ event.user_id ≠ event.operator_id →
      (groupRecallHandler whitelist env cache event).sends = []
      ∧ (groupRecallHandler whitelist env cache event).cache = cache := by
  intro whitelist env cache event h
  simp only [groupRecallHandler]
  by_cases hmem : event.group_id ∉ whitelist
  · rw [if_pos hmem]
    exact ⟨rfl, rfl⟩
  · have hne : event.user_id ≠ event.operator_id := h.resolve_left hmem
    rw [if_neg hmem, if_pos hne]
    exact ⟨rfl, rfl⟩

/-- Witness for C6: a moderator recall (operator 8 ≠ author 7) on a
whitelisted group with a cached entry: nothing is sent and the entry
survives. -/
theorem c6_reject_noop_witness :
    (groupRecallHandler {1} envFail [((1, 100), [recordRef])]
      { group_id := 1, user_id := 7, operator_id := 8, message_id := 100 }).sends = []
    ∧ (groupRecallHandler {1} envFail [((1, 100), [recordRef])]
        { group_id := 1, user_id := 7, operator_id := 8, message_id := 100 }).cache
      = [((1, 100), [recordRef])] :=
  c6_reject_noop {1} envFail [((1, 100), [recordRef])]
    { group_id := 1, user_id := 7, operator_id := 8, message_id := 100 }
    (Or.inr (by decide))

/-- C10: when the member lookup fails the display name is
`str(user_id)`; when it succeeds and the `card`/`nickname` fields are
strings (their OneBot payload type), the name is the trimmed card if
non-empty, else the trimmed nickname if non-empty, else
`str(user_id)` — a name is always produced. -/
theorem c10_member_name :
    ∀ (env : BotEnv) (group_id user_id : Int),
      (env.member_info group_id user_id = Option.none →
        getMemberName env group_id user_id = toString user_id)
      ∧ (∀ member, env.member_info group_id user_id = Option.some member →
          (∀ v, dictLookup member ("card") = Option.some v → ∃ s, v = PyVal.str s) →
          (∀ v, dictLookup member ("nickname") = Option.some v → ∃ s, v = PyVal.str s) →
          getMemberName env group_id user_id = claimDisplayName member user_id) := by
  intro env group_id user_id
  constructor
  · intro h
    unfold getMemberName
    rw [h]
  · intro member hm hcard hnick
    have hfield : ∀ key : String,
        (∀ v, dictLookup member key = Option.some v → ∃ s, v = PyVal.str s) →
        pyStrip (pyStr (orEmptyStr (dictGetD member key PyVal.none)))
          = pyStrip (memberFieldStr member key) := by
      intro key hk
      unfold dictGetD memberFieldStr
      cases hl : dictLookup member key with
      | none => rfl
      | some v =>
          obtain ⟨s, rfl⟩ := hk v hl
          by_cases hs : s = ("")
          · subst hs
            rfl
          · have ho : orEmptyStr (PyVal.str s) = PyVal.str s := by
              simp [orEmptyStr, pyTruthy, hs]
            rw [ho]
            rfl
    have hg : getMemberName env group_id user_id
        = strOr (pyStrip (pyStr (orEmptyStr (dictGetD member ("card") PyVal.none))))
            (strOr (pyStrip (pyStr (orEmptyStr (dictGetD member ("nickname") PyVal.none))))
              (toString user_id)) := by
      unfold getMemberName
      rw [hm]
    rw [hg, hfield ("card") hcard, hfield ("nickname") hnick]
    unfold claimDisplayName strOr
    rfl

/-- Witness for C10: a member dict with a padded card and no
nickname. -/
theorem c10_member_name_witness :
    getMemberName envMember 1 7 = claimDisplayName memberCardOnly 7 :=
  (c10_member_name envMember 1 7).2 memberCardOnly rfl
    (fun _ hv => ⟨("  C  "), (Option.some.inj hv).symm⟩)
    (fun _ hv => Option.noConfusion hv)

end Recall
